import Mathlib

/-!
# A shallow embedding of the soundcloud-rs client

This file embeds the data model and the operations of the
`soundcloud-rs` repository (files `src/lib.rs`, `src/error.rs`,
`src/client.rs`, `examples/search_tracks.rs`) as executable Lean
definitions and proves or refutes the specified properties.

Modelling conventions:
* Rust `Result`s and the possibility of a `panic!` (from `.unwrap()`)
  are captured by the `Outcome` type below: `ok`, `err` (an `Error`
  value is returned), or `panic` (abnormal termination).
* The external `hyper` transport is a parameter: a function from a
  request URI to either a transport error (modelled as a `String`,
  standing for `hyper::Error`) or a `Response` giving the optional
  `Location` header and the list of body chunks.
* The caller supplied sink (`std::io::Write`) is a parameter: a
  function from a chunk to `Except String Nat`, the number of bytes
  accepted by one `write` call or an `io::Error` message.
* URLs (`url::Url` and `hyper::Uri`) are modelled by one `Url`
  structure together with an executable parser `Url.parse` over a
  simplified `scheme://host/path?k=v&...` grammar that mirrors the
  external `url` crate on the inputs the client produces.
-/

/-! ## The error model, from `src/error.rs` -/

/-- The `Error` enum of `src/error.rs`.  Payloads that the source only
ever touches through `to_string()` or `==` (the wrapped
`serde_json::Error`, `hyper::Error`, `io::Error`,
`hyper::http::uri::InvalidUri` and `url::ParseError` values) are
modelled by their string rendering. -/
inductive Error where
  | ApiError (msg : String)
  | ParseError (err : String)
  | JsonError (err : String)
  | HttpError (err : String)
  | InvalidFilter (msg : String)
  | Io (err : String)
  | UriError (err : String)
  | TrackNotDownloadable
  | TrackNotStreamable
deriving Repr, DecidableEq

/-- The `fmt::Display` implementation for `Error` in `src/error.rs`. -/
def Error.display : Error → String
  | .JsonError e => "JSON error: " ++ e
  | .HttpError e => "HTTP error: " ++ e
  | .ApiError e => "SoundCloud error: " ++ e
  | .ParseError e => "Parse error: " ++ e
  | .Io e => "IO error: " ++ e
  | .UriError e => "URI error: " ++ e
  | .InvalidFilter _ => "Invalid filter"
  | .TrackNotStreamable => "The track is not available for streaming"
  | .TrackNotDownloadable => "The track is not available for download"

/-- The hand written `PartialEq<Error> for Error` implementation in
`src/error.rs`, arm by arm.  The `Io` arm compares
`self.to_string() == other.to_string()` on the whole error, the other
payload carrying arms compare the payloads, and the two unit arms are
exactly as in the source: the `TrackNotStreamable` arm accepts only
`TrackNotDownloadable` on the right hand side. -/
def Error.beq (a b : Error) : Bool :=
  match a with
  | .JsonError lhs =>
    match b with | .JsonError rhs => lhs == rhs | _ => false
  | .HttpError lhs =>
    match b with | .HttpError rhs => lhs == rhs | _ => false
  | .ApiError lhs =>
    match b with | .ApiError rhs => lhs == rhs | _ => false
  | .ParseError lhs =>
    match b with | .ParseError rhs => lhs == rhs | _ => false
  | .Io _ =>
    match b with | .Io _ => a.display == b.display | _ => false
  | .UriError lhs =>
    match b with | .UriError rhs => lhs == rhs | _ => false
  | .InvalidFilter lhs =>
    match b with | .InvalidFilter rhs => lhs == rhs | _ => false
  | .TrackNotStreamable =>
    match b with | .TrackNotDownloadable => true | _ => false
  | .TrackNotDownloadable =>
    match b with | .TrackNotDownloadable => true | _ => false

/-! ## URLs

The client builds URLs with the external `url` crate and converts them
to `hyper::Uri` values.  Both are modelled by `Url`; `Url.parse` is an
executable parser for the absolute form `scheme://host/path?query`. -/

/-- A parsed URL: scheme, host, path and decoded query pairs. -/
structure Url where
  scheme : String
  host : String
  path : String
  query : List (String × String)
deriving Repr, DecidableEq

/-- Split a character list on every occurrence of the ampersand, the
query pair separator.  Always returns a non empty list. -/
def splitAmp : List Char → List (List Char)
  | [] => [[]]
  | c :: rest =>
    if c = '&' then [] :: splitAmp rest
    else
      match splitAmp rest with
      | r :: rs => (c :: r) :: rs
      | [] => [[c]]

/-- Decode one `key=value` query component: the key is everything
before the first equals sign, the value everything after it. -/
def pairOfChars (p : List Char) : String × String :=
  (⟨p.takeWhile (fun c => c != '=')⟩, ⟨(p.dropWhile (fun c => c != '=')).drop 1⟩)

/-- Decode a raw query string into key and value pairs. -/
def Url.parseQuery (s : List Char) : List (String × String) :=
  match s with
  | [] => []
  | _ => (splitAmp s).map pairOfChars

/-- Parse a character list as an absolute URL
`scheme://host/path?query`.  Returns `none` when there is no
`scheme://` prelude, the scheme is empty or not alphabetic, or the
host is empty — the cases in which the external `url` crate rejects
the inputs appearing in this development. -/
def Url.parseChars (cs : List Char) : Option Url :=
  let scheme := cs.takeWhile (fun c => c != ':')
  match cs.dropWhile (fun c => c != ':') with
  | ':' :: '/' :: '/' :: rest =>
    if scheme.isEmpty then none
    else if !scheme.all Char.isAlpha then none
    else
      let hostpath := rest.takeWhile (fun c => c != '?')
      let qpart := (rest.dropWhile (fun c => c != '?')).drop 1
      let host := hostpath.takeWhile (fun c => c != '/')
      let path := hostpath.dropWhile (fun c => c != '/')
      if host.isEmpty then none
      else some ⟨⟨scheme⟩, ⟨host⟩, ⟨path⟩, Url.parseQuery qpart⟩
  | _ => none

/-- Parse a string as an absolute URL (`url::Url::parse`, and also
`str::parse::<hyper::Uri>` on the absolute URLs this client builds). -/
def Url.parse (s : String) : Option Url := Url.parseChars s.data

/-- Serialize query pairs, separating pairs with ampersands. -/
def Url.queryString : List (String × String) → List Char
  | [] => []
  | [(k, v)] => k.data ++ '=' :: v.data
  | (k, v) :: rest => k.data ++ '=' :: v.data ++ '&' :: Url.queryString rest

/-- Serialize a URL back to its string form (`url::Url::as_str`). -/
def Url.toString (u : Url) : String :=
  ⟨u.scheme.data ++ ':' :: '/' :: '/' :: u.host.data ++ u.path.data ++
    (match u.query with
     | [] => []
     | _ => '?' :: Url.queryString u.query)⟩

/-- `url::Url::query_pairs_mut().append_pair(k, v)`: append one query
pair. -/
def Url.appendPair (u : Url) (k v : String) : Url :=
  { u with query := u.query ++ [(k, v)] }

/-! ### Well-formedness

`Url.wf` delimits the fragment of the URL grammar on which the
simplified parser and serializer above are mutually inverse; it covers
every URL the client itself constructs (no percent encoding). -/

/-- The scheme is non empty and alphabetic. -/
def schemeWf (s : String) : Bool :=
  !s.data.isEmpty && s.data.all Char.isAlpha

/-- The host is non empty and free of path and query delimiters. -/
def hostWf (h : String) : Bool :=
  !h.data.isEmpty && h.data.all (fun c => c != '/' && c != '?')

/-- The path is empty or starts with a slash, and is free of the query
delimiter. -/
def pathWf (p : String) : Bool :=
  (match p.data with
   | [] => true
   | c :: _ => c == '/') && p.data.all (fun c => c != '?')

/-- A query pair is free of the separators that would change how it
reparses. -/
def pairWf : String × String → Bool
  | (k, v) =>
    k.data.all (fun c => c != '=' && c != '&' && c != '?') &&
      v.data.all (fun c => c != '&' && c != '?')

/-- A URL on which parsing inverts serialization. -/
def Url.wf (u : Url) : Bool :=
  schemeWf u.scheme && hostWf u.host && pathWf u.path && u.query.all pairWf

/-! ## The client, from `src/lib.rs` and `src/client.rs` -/

/-- The static host address for the API (`API_HOST` in `src/lib.rs`). -/
def API_HOST : String := "api.soundcloud.com"

/-- The result of running a piece of Rust code that may return a value,
return an `Error`, or terminate abnormally through `panic!` (every
`.unwrap()` in the source is modelled by the `panic` constructor). -/
inductive Outcome (α : Type) where
  | ok (a : α)
  | err (e : Error)
  | panic (msg : String)
deriving Repr, DecidableEq

/-- The fields of the `Track` record that `src/client.rs` reads.  The
full record lives in the `track` module, not part of `src/`; the four
fields and their types are fixed by their uses in `Client::download`
and `Client::stream` and by the data model section of the spec. -/
structure Track where
  downloadable : Bool
  download_url : Option String
  streamable : Bool
  stream_url : Option String
deriving Repr, DecidableEq

/-- An HTTP response as the client consumes it: the optional `Location`
header and the body as a list of chunks, each chunk a list of bytes. -/
structure Response where
  location : Option String
  body : List (List Nat)

/-- The transport (`hyper::Client` plus the reactor): one GET request
to a URI yields either a `hyper::Error` (modelled as a `String`) or a
`Response`. -/
def Transport : Type := Url → Except String Response

/-- The sink (`std::io::Write`): one `write` call on a chunk yields
the number of bytes accepted or an `io::Error` (a `String`). -/
def Sink : Type := List Nat → Except String Nat

/-- The `Client` struct: the stored `client_id` (the transport handle
is passed to the operations explicitly). -/
structure Client where
  client_id : String
deriving Repr, DecidableEq

/-- `From<io::Error> for hyper::Error`: the conversion the body fold
applies to a failed sink write before the pipeline's `map_err` wraps
the result in `Error::HttpError`.  The wrapped `io::Error` is carried
through unchanged. -/
def hyperErrorFromIo (e : String) : String := e

/-- `Client::parse_url` from `src/client.rs`: parse the string with
`Url::parse` and `.unwrap()` (panic on malformed input), append the
`client_id` query pair, then reparse the serialized URL as a
`hyper::Uri`, mapping a failure of that second parse to
`Error::UriError`. -/
def Client.parse_url (c : Client) (s : String) : Outcome Url :=
  match Url.parse s with
  | none => Outcome.panic "Url::parse failed"
  | some url =>
    let url2 := url.appendPair "client_id" c.client_id
    match Url.parse url2.toString with
    | some uri => Outcome.ok uri
    | none => Outcome.err (Error.UriError url2.toString)

/-- `Client::get` from `src/client.rs`: build
`https://API_HOST ++ path` with `Url::parse(..).unwrap()`, extend the
query pairs with the caller's parameters, then run the result through
`parse_url(..).unwrap()`; the returned URI is the request handed to
`http_client.get`. -/
def Client.get (c : Client) (path : String) (params : List (String × String)) :
    Outcome Url :=
  match Url.parse ("https://" ++ API_HOST ++ path) with
  | none => Outcome.panic "Url::parse failed"
  | some url =>
    let url2 := params.foldl (fun u kv => u.appendPair kv.1 kv.2) url
    match c.parse_url url2.toString with
    | Outcome.ok uri => Outcome.ok uri
    | Outcome.err _ => Outcome.panic "called unwrap on an Err value"
    | Outcome.panic m => Outcome.panic m

/-- The body fold of `Client::download` and `Client::stream`:
`response.body().fold(0, |acc, chunk| match writer.write(chunk) ...)`.
Each chunk is written once; on `Ok(num_written)` the fold continues
with `acc + num_written`, on an `io::Error` the fold stops with that
error. -/
def foldChunks (write : Sink) : Nat → List (List Nat) → Except String Nat
  | acc, [] => Except.ok acc
  | acc, chunk :: rest =>
    match write chunk with
    | Except.ok num_written => foldChunks write (acc + num_written) rest
    | Except.error e => Except.error e

/-- The chunks on which the fold invokes `writer.write`: every chunk
up to and including the first failing one. -/
def callsOf (write : Sink) : List (List Nat) → List (List Nat)
  | [] => []
  | chunk :: rest =>
    match write chunk with
    | Except.ok _ => chunk :: callsOf write rest
    | Except.error _ => [chunk]

/-- The byte counts returned by the successful `write` calls of the
fold. -/
def writtenBytes (write : Sink) : List (List Nat) → List Nat
  | [] => []
  | chunk :: rest =>
    match write chunk with
    | Except.ok num_written => num_written :: writtenBytes write rest
    | Except.error _ => []

/-- The tail of the transfer pipeline: the fold result, with a fold
error converted to `hyper::Error` (`From<io::Error>`) and wrapped by
the final `map_err(|error| Error::HttpError(error))`. -/
def foldOutcome (r : Except String Nat) : Outcome Nat :=
  match r with
  | Except.ok n => Outcome.ok n
  | Except.error e => Outcome.err (Error.HttpError (hyperErrorFromIo e))

/-- `Client::download` from `src/client.rs`, instrumented to also
return the list of requests handed to `http_client.get` in order.
Guard first (`TrackNotDownloadable` before any request), then
`parse_url(track.download_url.unwrap()).unwrap()`, one GET, an
optional single redirect hop when the response carries a `Location`
header (`header.parse().unwrap()`), and the body fold; every transport
error is wrapped in `Error::HttpError`. -/
def Client.download (c : Client) (track : Track) (fetch : Transport)
    (write : Sink) : List Url × Outcome Nat :=
  if !track.downloadable || track.download_url.isNone then
    ([], Outcome.err Error.TrackNotDownloadable)
  else
    match c.parse_url (track.download_url.getD "") with
    | Outcome.panic m => ([], Outcome.panic m)
    | Outcome.err _ => ([], Outcome.panic "called unwrap on an Err value")
    | Outcome.ok url =>
      match fetch url with
      | Except.error e => ([url], Outcome.err (Error.HttpError e))
      | Except.ok response =>
        match response.location with
        | some header =>
          match Url.parse header with
          | none => ([url], Outcome.panic "Location parse failed")
          | some uri =>
            match fetch uri with
            | Except.error e => ([url, uri], Outcome.err (Error.HttpError e))
            | Except.ok inner_response =>
              ([url, uri], foldOutcome (foldChunks write 0 inner_response.body))
        | none => ([url], foldOutcome (foldChunks write 0 response.body))

/-- `Client::stream` from `src/client.rs`: textually the same pipeline
as `Client::download` with the `streamable` guard, the `stream_url`
field and the `TrackNotStreamable` error. -/
def Client.stream (c : Client) (track : Track) (fetch : Transport)
    (write : Sink) : List Url × Outcome Nat :=
  if !track.streamable || track.stream_url.isNone then
    ([], Outcome.err Error.TrackNotStreamable)
  else
    match c.parse_url (track.stream_url.getD "") with
    | Outcome.panic m => ([], Outcome.panic m)
    | Outcome.err _ => ([], Outcome.panic "called unwrap on an Err value")
    | Outcome.ok url =>
      match fetch url with
      | Except.error e => ([url], Outcome.err (Error.HttpError e))
      | Except.ok response =>
        match response.location with
        | some header =>
          match Url.parse header with
          | none => ([url], Outcome.panic "Location parse failed")
          | some uri =>
            match fetch uri with
            | Except.error e => ([url, uri], Outcome.err (Error.HttpError e))
            | Except.ok inner_response =>
              ([url, uri], foldOutcome (foldChunks write 0 inner_response.body))
        | none => ([url], foldOutcome (foldChunks write 0 response.body))

/-- `Client::resolve` from `src/client.rs`, instrumented with the list
of issued requests: `get("/resolve", [("url", url)])`, transport
errors mapped to `Error::HttpError`, then success is the `Location`
header parsed with `Url::parse(..).unwrap()` and a missing header is
`Error::ApiError("expected location header")`. -/
def Client.resolve (c : Client) (url : String) (fetch : Transport) :
    List Url × Outcome Url :=
  match c.get "/resolve" [("url", url)] with
  | Outcome.panic m => ([], Outcome.panic m)
  | Outcome.err _ => ([], Outcome.panic "called unwrap on an Err value")
  | Outcome.ok uri =>
    match fetch uri with
    | Except.error e => ([uri], Outcome.err (Error.HttpError e))
    | Except.ok response =>
      match response.location with
      | some header =>
        match Url.parse header with
        | some u => ([uri], Outcome.ok u)
        | none => ([uri], Outcome.panic "Url::parse failed")
      | none => ([uri], Outcome.err (Error.ApiError "expected location header"))

/-! ## The multi resource track request builder

The `track` module (the `Track` record and the request builders) is
not among the sources under `src/`; only its uses in `src/client.rs`,
the test suite and `examples/search_tracks.rs` are. -/

/-- The decoded body of a `/tracks` search response: either a JSON
value of the expected shape (`null` or a JSON array of track objects,
surfaced as an optional list) or a body that fails to deserialize. -/
inductive TracksBody where
  | jsonTracks (tracks : Option (List Track))
  | malformed (msg : String)

/-- Modelled from the spec: `TrackRequestBuilder::get` lives in the
`track` module, which is missing from `src/`.  Per the spec, the
terminal `get()` of the multi resource query builder performs an
authenticated `GET /tracks` with the accumulated parameters and
deserializes the body into an optional sequence of `Track` records;
an empty result set surfaces as an empty or absent sequence, a
transport failure as `HttpError` and a deserialization failure as
`JsonError`.  The `Option` shape is pinned down by
`examples/search_tracks.rs` (matching on `Some(tracks)`/`None`) and
the `test_get_tracks` test (`result.unwrap().is_some()`). -/
def TrackRequestBuilder.get (c : Client) (params : List (String × String))
    (fetch : Url → Except String TracksBody) : Outcome (Option (List Track)) :=
  match c.get "/tracks" params with
  | Outcome.panic m => Outcome.panic m
  | Outcome.err _ => Outcome.panic "called unwrap on an Err value"
  | Outcome.ok uri =>
    match fetch uri with
    | Except.error e => Outcome.err (Error.HttpError e)
    | Except.ok (TracksBody.malformed m) => Outcome.err (Error.JsonError m)
    | Except.ok (TracksBody.jsonTracks t) => Outcome.ok t


/-! ## Small observers and concrete fixtures -/

/-- Whether an outcome is a success. -/
def Outcome.isOk {α : Type} : Outcome α → Bool
  | Outcome.ok _ => true
  | _ => false

/-- Whether an outcome is a returned error of the `Io` kind. -/
def Outcome.errsWithIo {α : Type} : Outcome α → Bool
  | Outcome.err (Error.Io _) => true
  | _ => false

/-- The discriminant of an `Error`: which of the nine kinds it is. -/
def Error.kindIndex : Error → Nat
  | Error.ApiError _ => 0
  | Error.ParseError _ => 1
  | Error.JsonError _ => 2
  | Error.HttpError _ => 3
  | Error.InvalidFilter _ => 4
  | Error.Io _ => 5
  | Error.UriError _ => 6
  | Error.TrackNotDownloadable => 7
  | Error.TrackNotStreamable => 8

/-- A track that is eligible for both transfer operations. -/
def sampleTrack : Track :=
  { downloadable := true
    download_url := some "https://api.soundcloud.com/tracks/13158665/download"
    streamable := true
    stream_url := some "https://api.soundcloud.com/tracks/13158665/stream" }

/-- A transport whose API responses redirect to a CDN host and whose
CDN responses carry a plain two chunk body behind a further
redirect header. -/
def redirectingTransport : Transport := fun u =>
  if u.host == API_HOST then
    Except.ok { location := some "http://cdn.example.org/f.mp3", body := [] }
  else
    Except.ok { location := some "http://cdn2.example.org/g.mp3"
                body := [[1, 2, 3], [4, 5]] }

/-- A transport that answers every request with a plain body and no
redirect. -/
def plainBodyTransport : Transport := fun _ =>
  Except.ok { location := none, body := [[1, 2, 3], [4]] }

/-- A transport whose response carries a `Location` header that is not
a parseable URL. -/
def badLocationTransport : Transport := fun _ =>
  Except.ok { location := some "::: not a url", body := [] }

/-- A transport whose response carries a parseable canonical resource
URL in its `Location` header, as the resolve endpoint does. -/
def goodLocationTransport : Transport := fun _ =>
  Except.ok { location := some "https://api.soundcloud.com/tracks/262976655"
              body := [] }

/-- A sink that accepts every chunk in full. -/
def countingSink : Sink := fun chunk => Except.ok chunk.length

/-- A sink that accepts at most two bytes of each chunk. -/
def shortSink : Sink := fun chunk => Except.ok (min chunk.length 2)

/-- A sink whose first and every write fails. -/
def failingSink : Sink := fun _ => Except.error "disk full"

/-- A transport for the search endpoint whose decoded response body is
an empty JSON array of tracks. -/
def emptyTracksTransport : Url → Except String TracksBody := fun _ =>
  Except.ok (TracksBody.jsonTracks (some []))

/-! # Theorems -/

/-! ### Round trip lemmas -/

theorem takeWhile_append_of_all {α} (p : α → Bool) {l₁ : List α} (l₂ : List α)
    (h : ∀ a ∈ l₁, p a = true) :
    (l₁ ++ l₂).takeWhile p = l₁ ++ l₂.takeWhile p := by
  induction l₁ with
  | nil => simp
  | cons a l ih =>
    simp only [List.cons_append, List.takeWhile_cons, h a (by simp), if_true]
    rw [ih fun b hb => h b (by simp [hb])]

theorem dropWhile_append_of_all {α} (p : α → Bool) {l₁ : List α} (l₂ : List α)
    (h : ∀ a ∈ l₁, p a = true) :
    (l₁ ++ l₂).dropWhile p = l₂.dropWhile p := by
  induction l₁ with
  | nil => simp
  | cons a l ih =>
    simp only [List.cons_append, List.dropWhile_cons, h a (by simp), if_true]
    exact ih fun b hb => h b (by simp [hb])

theorem splitAmp_ne_nil (l : List Char) : splitAmp l ≠ [] := by
  induction l with
  | nil => simp [splitAmp]
  | cons c rest ih =>
    simp only [splitAmp]
    split
    · simp
    · match h : splitAmp rest with
      | [] => exact absurd h ih
      | r :: rs => simp

theorem splitAmp_of_no_amp {l : List Char} (h : ∀ c ∈ l, c ≠ '&') :
    splitAmp l = [l] := by
  induction l with
  | nil => rfl
  | cons c rest ih =>
    simp only [splitAmp, if_neg (h c (by simp))]
    rw [ih fun b hb => h b (by simp [hb])]

theorem splitAmp_append {l₁ l₂ : List Char} (h : ∀ c ∈ l₁, c ≠ '&') :
    splitAmp (l₁ ++ '&' :: l₂) = l₁ :: splitAmp l₂ := by
  induction l₁ with
  | nil => simp [splitAmp]
  | cons c rest ih =>
    simp only [List.cons_append, splitAmp, if_neg (h c (by simp)), List.append_eq]
    rw [ih fun b hb => h b (by simp [hb])]

theorem pairOfChars_encode {kd vd : List Char} (hk : ∀ c ∈ kd, (c != '=') = true) :
    pairOfChars (kd ++ '=' :: vd) = (⟨kd⟩, ⟨vd⟩) := by
  simp only [pairOfChars, takeWhile_append_of_all _ _ hk,
    dropWhile_append_of_all _ _ hk]
  simp [List.takeWhile_cons, List.dropWhile_cons]

theorem ne_colon_of_isAlpha {c : Char} (h : c.isAlpha = true) : (c != ':') = true := by
  rw [bne_iff_ne]
  rintro rfl
  exact absurd h (by decide)

theorem parseQuery_of_ne_nil {s : List Char} (h : s ≠ []) :
    Url.parseQuery s = (splitAmp s).map pairOfChars := by
  cases s with
  | nil => exact absurd rfl h
  | cons c rest => rfl

theorem queryString_ne_nil (k v : String) (rest : List (String × String)) :
    Url.queryString ((k, v) :: rest) ≠ [] := by
  cases rest <;> simp [Url.queryString]

theorem parseQuery_queryString (q : List (String × String))
    (hq : ∀ p ∈ q, pairWf p = true) (hne : q ≠ []) :
    Url.parseQuery (Url.queryString q) = q := by
  induction q with
  | nil => exact absurd rfl hne
  | cons hd tl ih =>
    obtain ⟨k, v⟩ := hd
    have hkv := hq (k, v) (by simp)
    simp only [pairWf, Bool.and_eq_true, List.all_eq_true] at hkv
    obtain ⟨hk, hv⟩ := hkv
    have hkeq : ∀ c ∈ k.data, (c != '=') = true := fun c hc => ((hk c hc).1).1
    have hkamp : ∀ c ∈ k.data, c ≠ '&' := fun c hc => by
      have := ((hk c hc).1).2
      rwa [bne_iff_ne] at this
    have hvamp : ∀ c ∈ v.data, c ≠ '&' := fun c hc => by
      have := (hv c hc).1
      rwa [bne_iff_ne] at this
    cases tl with
    | nil =>
      rw [show Url.queryString [(k, v)] = k.data ++ '=' :: v.data from rfl,
        parseQuery_of_ne_nil (by simp),
        splitAmp_of_no_amp (by
          intro c hc
          rcases List.mem_append.mp hc with h1 | h1
          · exact hkamp c h1
          · rcases List.mem_cons.mp h1 with h2 | h2
            · subst h2; decide
            · exact hvamp c h2)]
      simp [pairOfChars_encode hkeq]
    | cons p tl2 =>
      have hstep : Url.queryString ((k, v) :: p :: tl2) =
          (k.data ++ '=' :: v.data) ++ '&' :: Url.queryString (p :: tl2) := by
        simp [Url.queryString, List.append_assoc]
      rw [hstep, parseQuery_of_ne_nil (by simp),
        splitAmp_append (by
          intro c hc
          rcases List.mem_append.mp hc with h1 | h1
          · exact hkamp c h1
          · rcases List.mem_cons.mp h1 with h2 | h2
            · subst h2; decide
            · exact hvamp c h2)]
      obtain ⟨pk, pv⟩ := p
      rw [List.map_cons, pairOfChars_encode hkeq,
        ← parseQuery_of_ne_nil (queryString_ne_nil pk pv tl2),
        ih (fun r hr => hq r (by simp [hr])) (by simp)]

theorem parseChars_spine (sc ho pa qtail : List Char)
    (hscne : sc ≠ []) (hscalpha : ∀ c ∈ sc, c.isAlpha = true)
    (hhone : ho ≠ []) (hho : ∀ c ∈ ho, (c != '/') = true ∧ (c != '?') = true)
    (hpahead : pa = [] ∨ ∃ t, pa = '/' :: t)
    (hpa : ∀ c ∈ pa, (c != '?') = true)
    (hqt : qtail = [] ∨ ∃ t, qtail = '?' :: t) :
    Url.parseChars (sc ++ ':' :: '/' :: '/' :: (ho ++ (pa ++ qtail))) =
      some ⟨⟨sc⟩, ⟨ho⟩, ⟨pa⟩, Url.parseQuery (qtail.drop 1)⟩ := by
  have hcolon : ∀ c ∈ sc, (c != ':') = true :=
    fun c hc => ne_colon_of_isAlpha (hscalpha c hc)
  have h1 : (sc ++ ':' :: '/' :: '/' :: (ho ++ (pa ++ qtail))).takeWhile
      (fun c => c != ':') = sc := by
    rw [takeWhile_append_of_all _ _ hcolon]
    simp [List.takeWhile_cons]
  have h2 : (sc ++ ':' :: '/' :: '/' :: (ho ++ (pa ++ qtail))).dropWhile
      (fun c => c != ':') = ':' :: '/' :: '/' :: (ho ++ (pa ++ qtail)) := by
    rw [dropWhile_append_of_all _ _ hcolon]
    simp [List.dropWhile_cons]
  have hq1 : (ho ++ (pa ++ qtail) : List Char).takeWhile (fun c => c != '?') =
      ho ++ pa := by
    rw [takeWhile_append_of_all _ _ (fun c hc => (hho c hc).2),
      takeWhile_append_of_all _ _ hpa]
    rcases hqt with rfl | ⟨t, rfl⟩ <;> simp [List.takeWhile_cons]
  have hq2 : (ho ++ (pa ++ qtail) : List Char).dropWhile (fun c => c != '?') =
      qtail := by
    rw [dropWhile_append_of_all _ _ (fun c hc => (hho c hc).2),
      dropWhile_append_of_all _ _ hpa]
    rcases hqt with rfl | ⟨t, rfl⟩ <;> simp [List.dropWhile_cons]
  have hh1 : (ho ++ pa : List Char).takeWhile (fun c => c != '/') = ho := by
    rw [takeWhile_append_of_all _ _ (fun c hc => (hho c hc).1)]
    rcases hpahead with rfl | ⟨t, rfl⟩ <;> simp [List.takeWhile_cons]
  have hh2 : (ho ++ pa : List Char).dropWhile (fun c => c != '/') = pa := by
    rw [dropWhile_append_of_all _ _ (fun c hc => (hho c hc).1)]
    rcases hpahead with rfl | ⟨t, rfl⟩ <;> simp [List.dropWhile_cons]
  simp only [Url.parseChars, h1, h2, hq1, hq2, hh1, hh2]
  rw [if_neg (by simp [List.isEmpty_iff, hscne]),
    if_neg (by simp [List.all_eq_true]; exact fun c hc => hscalpha c hc),
    if_neg (by simp [List.isEmpty_iff, hhone])]

/-- On well formed URLs, parsing inverts serialization. -/
theorem Url.parse_toString (u : Url) (h : u.wf = true) :
    Url.parse u.toString = some u := by
  obtain ⟨⟨sc⟩, ⟨ho⟩, ⟨pa⟩, q⟩ := u
  simp only [Url.wf, schemeWf, hostWf, pathWf, Bool.and_eq_true, Bool.not_eq_true',
    List.all_eq_true] at h
  obtain ⟨⟨⟨⟨hscne, hscalpha⟩, hhone, hhochars⟩, hpahead, hpachars⟩, hq⟩ := h
  have hsc : (String.mk sc).data = sc := rfl
  have hschars : ∀ c ∈ sc, c.isAlpha = true := hscalpha
  have hho : ∀ c ∈ ho, (c != '/') = true ∧ (c != '?') = true := hhochars
  have hpahd : pa = [] ∨ ∃ t, pa = '/' :: t := by
    cases pa with
    | nil => exact Or.inl rfl
    | cons c t =>
      right
      refine ⟨t, ?_⟩
      simp only at hpahead
      rw [beq_iff_eq] at hpahead
      rw [hpahead]
  have hscne2 : sc ≠ [] := by
    intro hv
    rw [hv] at hscne
    exact absurd hscne (by simp [List.isEmpty])
  have hhone2 : ho ≠ [] := by
    intro hv
    rw [hv] at hhone
    exact absurd hhone (by simp [List.isEmpty])
  cases q with
  | nil =>
    simp only [Url.parse, Url.toString, List.append_assoc, List.cons_append]
    rw [parseChars_spine sc ho pa [] hscne2 hschars hhone2 hho hpahd hpachars
      (Or.inl rfl)]
    rfl
  | cons p rest =>
    simp only [Url.parse, Url.toString, List.append_assoc, List.cons_append]
    rw [parseChars_spine sc ho pa ('?' :: Url.queryString (p :: rest)) hscne2 hschars
      hhone2 hho hpahd hpachars (Or.inr ⟨_, rfl⟩)]
    simp only [List.drop_succ_cons, List.drop_zero]
    rw [parseQuery_queryString _ hq (by simp)]

/-! ## Helper lemmas about the body fold -/

theorem foldChunks_all_ok (write : Sink) (chunks : List (List Nat))
    (h : ∀ ch ∈ chunks, ∃ n, write ch = Except.ok n) :
    ∀ acc, foldChunks write acc chunks =
      Except.ok (acc + (writtenBytes write chunks).sum) := by
  induction chunks with
  | nil => intro acc; simp [foldChunks, writtenBytes]
  | cons chunk rest ih =>
    intro acc
    obtain ⟨n, hn⟩ := h chunk (by simp)
    simp only [foldChunks, writtenBytes, hn]
    rw [ih fun ch hch => h ch (by simp [hch])]
    simp [Nat.add_assoc]

theorem foldChunks_first_err (write : Sink) (pre : List (List Nat))
    (chunk : List Nat) (post : List (List Nat)) (e : String)
    (hpre : ∀ ch ∈ pre, ∃ n, write ch = Except.ok n)
    (herr : write chunk = Except.error e) :
    ∀ acc, foldChunks write acc (pre ++ chunk :: post) = Except.error e := by
  induction pre with
  | nil => intro acc; simp [foldChunks, herr]
  | cons c rest ih =>
    intro acc
    obtain ⟨n, hn⟩ := hpre c (by simp)
    simp only [List.cons_append, foldChunks, hn]
    exact ih (fun ch hch => hpre ch (by simp [hch])) _

theorem callsOf_first_err (write : Sink) (pre : List (List Nat))
    (chunk : List Nat) (post : List (List Nat)) (e : String)
    (hpre : ∀ ch ∈ pre, ∃ n, write ch = Except.ok n)
    (herr : write chunk = Except.error e) :
    callsOf write (pre ++ chunk :: post) = pre ++ [chunk] := by
  induction pre with
  | nil => simp [callsOf, herr]
  | cons c rest ih =>
    obtain ⟨n, hn⟩ := hpre c (by simp)
    simp only [List.cons_append, callsOf, hn, List.append_eq]
    rw [ih fun ch hch => hpre ch (by simp [hch])]

theorem writtenBytes_sum_le (write : Sink) (chunks : List (List Nat))
    (h : ∀ ch ∈ chunks, ∃ n, write ch = Except.ok n ∧ n ≤ ch.length) :
    (writtenBytes write chunks).sum ≤ (chunks.map List.length).sum := by
  induction chunks with
  | nil => simp [writtenBytes]
  | cons chunk rest ih =>
    obtain ⟨n, hn, hle⟩ := h chunk (by simp)
    simp only [writtenBytes, hn, List.map_cons, List.sum_cons]
    exact Nat.add_le_add hle (ih fun ch hch => h ch (by simp [hch]))

theorem writtenBytes_sum_lt (write : Sink) (chunks : List (List Nat))
    (h : ∀ ch ∈ chunks, ∃ n, write ch = Except.ok n ∧ n ≤ ch.length)
    (hlt : ∃ ch ∈ chunks, ∃ n, write ch = Except.ok n ∧ n < ch.length) :
    (writtenBytes write chunks).sum < (chunks.map List.length).sum := by
  induction chunks with
  | nil => simp at hlt
  | cons chunk rest ih =>
    obtain ⟨n, hn, hle⟩ := h chunk (by simp)
    simp only [writtenBytes, hn, List.map_cons, List.sum_cons]
    obtain ⟨ch, hch, m, hm, hmlt⟩ := hlt
    rcases List.mem_cons.mp hch with rfl | hch2
    · have hmn : m = n := Except.ok.inj (hm.symm.trans hn)
      subst hmn
      exact Nat.add_lt_add_of_lt_of_le hmlt
        (writtenBytes_sum_le write rest fun ch hch => h ch (by simp [hch]))
    · exact Nat.add_lt_add_of_le_of_lt hle
        (ih (fun ch hch => h ch (by simp [hch])) ⟨ch, hch2, m, hm, hmlt⟩)

/-! ## Helper lemmas about the transfer pipeline -/

/-- An eligible download run whose payload body is `chunks` (directly,
or through the single redirect hop) returns exactly the wrapped body
fold. -/
theorem download_snd_eq_foldOutcome (c : Client) (track : Track) (fetch : Transport)
    (write : Sink) (s : String) (url : Url) (resp : Response)
    (chunks : List (List Nat))
    (h1 : track.downloadable = true) (h2 : track.download_url = some s)
    (h3 : c.parse_url s = Outcome.ok url) (h4 : fetch url = Except.ok resp)
    (h5 : (resp.location = none ∧ chunks = resp.body) ∨
      (∃ loc uri2 resp2, resp.location = some loc ∧ Url.parse loc = some uri2 ∧
        fetch uri2 = Except.ok resp2 ∧ chunks = resp2.body)) :
    (c.download track fetch write).2 = foldOutcome (foldChunks write 0 chunks) := by
  rcases h5 with ⟨hl, hc⟩ | ⟨loc, uri2, resp2, hl, hp, hf, hc⟩
  · subst hc
    simp [Client.download, h1, h2, h3, h4, hl]
  · subst hc
    simp [Client.download, h1, h2, h3, h4, hl, hp, hf]

/-- The `stream` analog of `download_snd_eq_foldOutcome`. -/
theorem stream_snd_eq_foldOutcome (c : Client) (track : Track) (fetch : Transport)
    (write : Sink) (s : String) (url : Url) (resp : Response)
    (chunks : List (List Nat))
    (h1 : track.streamable = true) (h2 : track.stream_url = some s)
    (h3 : c.parse_url s = Outcome.ok url) (h4 : fetch url = Except.ok resp)
    (h5 : (resp.location = none ∧ chunks = resp.body) ∨
      (∃ loc uri2 resp2, resp.location = some loc ∧ Url.parse loc = some uri2 ∧
        fetch uri2 = Except.ok resp2 ∧ chunks = resp2.body)) :
    (c.stream track fetch write).2 = foldOutcome (foldChunks write 0 chunks) := by
  rcases h5 with ⟨hl, hc⟩ | ⟨loc, uri2, resp2, hl, hp, hf, hc⟩
  · subst hc
    simp [Client.stream, h1, h2, h3, h4, hl]
  · subst hc
    simp [Client.stream, h1, h2, h3, h4, hl, hp, hf]

/-! ## The claims -/

/-- C1: for every track with `downloadable == false` or
`download_url == None`, `Client::download` returns the error
`TrackNotDownloadable` and issues no HTTP request; symmetrically, for
every track with `streamable == false` or `stream_url == None`,
`Client::stream` returns `TrackNotStreamable` and issues no HTTP
request. -/
theorem claim_C1_transfer_guards :
    (∀ (c : Client) (track : Track) (fetch : Transport) (write : Sink),
      track.downloadable = false ∨ track.download_url = none →
      c.download track fetch write = ([], Outcome.err Error.TrackNotDownloadable)) ∧
    (∀ (c : Client) (track : Track) (fetch : Transport) (write : Sink),
      track.streamable = false ∨ track.stream_url = none →
      c.stream track fetch write = ([], Outcome.err Error.TrackNotStreamable)) := by
  constructor
  · rintro c track fetch write (h | h) <;> simp [Client.download, h]
  · rintro c track fetch write (h | h) <;> simp [Client.stream, h]

/-- Witness for C1: a non downloadable track and a track without a
stream URL, run against a live transport and sink. -/
theorem claim_C1_witness :
    Client.download ⟨"CID"⟩ ⟨false, some "u", true, some "v"⟩ plainBodyTransport
      countingSink = ([], Outcome.err Error.TrackNotDownloadable) ∧
    Client.stream ⟨"CID"⟩ ⟨true, some "u", true, none⟩ plainBodyTransport
      countingSink = ([], Outcome.err Error.TrackNotStreamable) :=
  ⟨claim_C1_transfer_guards.1 _ _ _ _ (Or.inl rfl),
   claim_C1_transfer_guards.2 _ _ _ _ (Or.inr rfl)⟩

/-- C5: error equality is per kind with matching message for the
message carrying kinds, except that `TrackNotStreamable` (left)
compared with `TrackNotDownloadable` (right) yields `true` while the
reversed comparison yields `false`; consequently the relation is not
symmetric.  Any two errors that compare equal are of the same kind or
are exactly that exceptional ordered pair. -/
theorem claim_C5_error_equality_contract :
    (∀ s t, Error.beq (Error.ApiError s) (Error.ApiError t) = true ↔ s = t) ∧
    (∀ s t, Error.beq (Error.ParseError s) (Error.ParseError t) = true ↔ s = t) ∧
    (∀ s t, Error.beq (Error.JsonError s) (Error.JsonError t) = true ↔ s = t) ∧
    (∀ s t, Error.beq (Error.HttpError s) (Error.HttpError t) = true ↔ s = t) ∧
    (∀ s t, Error.beq (Error.InvalidFilter s) (Error.InvalidFilter t) = true ↔ s = t) ∧
    (∀ s t, Error.beq (Error.UriError s) (Error.UriError t) = true ↔ s = t) ∧
    (∀ s t, Error.beq (Error.Io s) (Error.Io t) = true ↔ s = t) ∧
    Error.beq Error.TrackNotStreamable Error.TrackNotDownloadable = true ∧
    Error.beq Error.TrackNotDownloadable Error.TrackNotStreamable = false ∧
    (∀ a b : Error, Error.beq a b = true →
      a.kindIndex = b.kindIndex ∨
        (a = Error.TrackNotStreamable ∧ b = Error.TrackNotDownloadable)) ∧
    ¬ (∀ a b : Error, Error.beq a b = Error.beq b a) := by
  refine ⟨?_, ?_, ?_, ?_, ?_, ?_, ?_, rfl, rfl, ?_, ?_⟩
  · intro s t; simp [Error.beq]
  · intro s t; simp [Error.beq]
  · intro s t; simp [Error.beq]
  · intro s t; simp [Error.beq]
  · intro s t; simp [Error.beq]
  · intro s t; simp [Error.beq]
  · intro s t
    simp only [Error.beq, Error.display, beq_iff_eq]
    constructor
    · intro h
      have h2 := congrArg String.data h
      simp only [String.data_append] at h2
      exact String.ext (List.append_cancel_left h2)
    · intro h; rw [h]
  · intro a b h
    cases a <;> cases b <;> simp_all [Error.beq, Error.kindIndex]
  · intro h
    have h2 := h Error.TrackNotStreamable Error.TrackNotDownloadable
    simp [Error.beq] at h2

/-- Witness for C5: the `Io` kind compares by message, checked on a
concrete message. -/
theorem claim_C5_witness :
    Error.beq (Error.Io "unexpected eof") (Error.Io "unexpected eof") = true :=
  (claim_C5_error_equality_contract.2.2.2.2.2.2.1 "unexpected eof"
    "unexpected eof").mpr rfl

/-- C9: the equality on `Error` is not reflexive:
`TrackNotStreamable == TrackNotStreamable` evaluates to `false`,
because that arm of the implementation accepts only
`TrackNotDownloadable` on the right hand side. -/
theorem claim_C9_equality_not_reflexive :
    Error.beq Error.TrackNotStreamable Error.TrackNotStreamable = false ∧
    ¬ (∀ a : Error, Error.beq a a = true) := by
  refine ⟨rfl, fun h => ?_⟩
  have h2 := h Error.TrackNotStreamable
  simp [Error.beq] at h2

/-- C3: every transfer run issues at most two requests; and whenever
the first response carries a `Location` header, the client issues
exactly one follow up GET to the parsed location and consumes the
second response's body as the payload — a `Location` header on the
second response is never followed. -/
theorem claim_C3_at_most_one_redirect_hop :
    (∀ (c : Client) (track : Track) (fetch : Transport) (write : Sink),
      ((c.download track fetch write).1).length ≤ 2) ∧
    (∀ (c : Client) (track : Track) (fetch : Transport) (write : Sink),
      ((c.stream track fetch write).1).length ≤ 2) ∧
    (∀ (c : Client) (track : Track) (fetch : Transport) (write : Sink)
       (s : String) (url : Url) (resp : Response) (loc : String) (uri2 : Url)
       (resp2 : Response),
      track.downloadable = true → track.download_url = some s →
      c.parse_url s = Outcome.ok url → fetch url = Except.ok resp →
      resp.location = some loc → Url.parse loc = some uri2 →
      fetch uri2 = Except.ok resp2 →
      c.download track fetch write =
        ([url, uri2], foldOutcome (foldChunks write 0 resp2.body))) ∧
    (∀ (c : Client) (track : Track) (fetch : Transport) (write : Sink)
       (s : String) (url : Url) (resp : Response) (loc : String) (uri2 : Url)
       (resp2 : Response),
      track.streamable = true → track.stream_url = some s →
      c.parse_url s = Outcome.ok url → fetch url = Except.ok resp →
      resp.location = some loc → Url.parse loc = some uri2 →
      fetch uri2 = Except.ok resp2 →
      c.stream track fetch write =
        ([url, uri2], foldOutcome (foldChunks write 0 resp2.body))) := by
  refine ⟨?_, ?_, ?_, ?_⟩
  · intro c track fetch write
    unfold Client.download
    repeat' split
    all_goals simp
  · intro c track fetch write
    unfold Client.stream
    repeat' split
    all_goals simp
  · intro c track fetch write s url resp loc uri2 resp2 h1 h2 h3 h4 h5 h6 h7
    simp [Client.download, h1, h2, h3, h4, h5, h6, h7]
  · intro c track fetch write s url resp loc uri2 resp2 h1 h2 h3 h4 h5 h6 h7
    simp [Client.stream, h1, h2, h3, h4, h5, h6, h7]

/-- Witness for C3: a run against a transport whose second response is
itself a redirect; exactly two requests are issued and the second
response's body is consumed as the payload. -/
theorem claim_C3_witness :
    Client.download ⟨"CID"⟩ sampleTrack redirectingTransport countingSink =
      ([⟨"https", API_HOST, "/tracks/13158665/download", [("client_id", "CID")]⟩,
        ⟨"http", "cdn.example.org", "/f.mp3", []⟩],
       Outcome.ok 5) :=
  claim_C3_at_most_one_redirect_hop.2.2.1 ⟨"CID"⟩ sampleTrack redirectingTransport
    countingSink "https://api.soundcloud.com/tracks/13158665/download"
    ⟨"https", API_HOST, "/tracks/13158665/download", [("client_id", "CID")]⟩
    { location := some "http://cdn.example.org/f.mp3", body := [] }
    "http://cdn.example.org/f.mp3"
    ⟨"http", "cdn.example.org", "/f.mp3", []⟩
    { location := some "http://cdn2.example.org/g.mp3", body := [[1, 2, 3], [4, 5]] }
    rfl rfl rfl rfl rfl rfl rfl

/-- Counterexample for C2: a run whose sink fails on the first chunk
does fail, but with `HttpError` (the fold converts the `io::Error`
into a `hyper::Error`, and the final `map_err` wraps every pipeline
error in `Error::HttpError`) — not with the `Io` variant the claim
names. -/
theorem claim_C2_counterexample :
    (Client.download ⟨"CID"⟩ sampleTrack plainBodyTransport failingSink).2 =
      Outcome.err (Error.HttpError "disk full") ∧
    Outcome.errsWithIo
      (Client.download ⟨"CID"⟩ sampleTrack plainBodyTransport failingSink).2 =
      false :=
  ⟨rfl, rfl⟩

/-- C2 as amended: for every eligible transfer whose payload body is
`chunks`, the returned byte count is the sum of the byte counts the
sink reported across all chunks; and if the sink fails on chunk N the
operation fails with `HttpError` carrying the converted I/O error
(not with the `Io` variant), and no chunk after N is written to the
sink. -/
theorem claim_C2_amended_byte_accounting :
    (∀ (c : Client) (track : Track) (fetch : Transport) (write : Sink)
       (s : String) (url : Url) (resp : Response) (chunks : List (List Nat)),
      track.downloadable = true → track.download_url = some s →
      c.parse_url s = Outcome.ok url → fetch url = Except.ok resp →
      ((resp.location = none ∧ chunks = resp.body) ∨
        (∃ loc uri2 resp2, resp.location = some loc ∧ Url.parse loc = some uri2 ∧
          fetch uri2 = Except.ok resp2 ∧ chunks = resp2.body)) →
      ((∀ ch ∈ chunks, ∃ n, write ch = Except.ok n) →
        (c.download track fetch write).2 =
          Outcome.ok ((writtenBytes write chunks).sum)) ∧
      (∀ pre chunk post e, chunks = pre ++ chunk :: post →
        (∀ ch ∈ pre, ∃ n, write ch = Except.ok n) →
        write chunk = Except.error e →
        (c.download track fetch write).2 =
          Outcome.err (Error.HttpError (hyperErrorFromIo e)) ∧
        callsOf write chunks = pre ++ [chunk])) ∧
    (∀ (c : Client) (track : Track) (fetch : Transport) (write : Sink)
       (s : String) (url : Url) (resp : Response) (chunks : List (List Nat)),
      track.streamable = true → track.stream_url = some s →
      c.parse_url s = Outcome.ok url → fetch url = Except.ok resp →
      ((resp.location = none ∧ chunks = resp.body) ∨
        (∃ loc uri2 resp2, resp.location = some loc ∧ Url.parse loc = some uri2 ∧
          fetch uri2 = Except.ok resp2 ∧ chunks = resp2.body)) →
      ((∀ ch ∈ chunks, ∃ n, write ch = Except.ok n) →
        (c.stream track fetch write).2 =
          Outcome.ok ((writtenBytes write chunks).sum)) ∧
      (∀ pre chunk post e, chunks = pre ++ chunk :: post →
        (∀ ch ∈ pre, ∃ n, write ch = Except.ok n) →
        write chunk = Except.error e →
        (c.stream track fetch write).2 =
          Outcome.err (Error.HttpError (hyperErrorFromIo e)) ∧
        callsOf write chunks = pre ++ [chunk])) := by
  constructor
  · intro c track fetch write s url resp chunks h1 h2 h3 h4 h5
    constructor
    · intro hok
      rw [download_snd_eq_foldOutcome c track fetch write s url resp chunks
        h1 h2 h3 h4 h5, foldChunks_all_ok write chunks hok 0]
      simp [foldOutcome]
    · intro pre chunk post e hchunks hpre herr
      constructor
      · rw [download_snd_eq_foldOutcome c track fetch write s url resp chunks
          h1 h2 h3 h4 h5, hchunks,
          foldChunks_first_err write pre chunk post e hpre herr 0]
        simp [foldOutcome]
      · rw [hchunks]
        exact callsOf_first_err write pre chunk post e hpre herr
  · intro c track fetch write s url resp chunks h1 h2 h3 h4 h5
    constructor
    · intro hok
      rw [stream_snd_eq_foldOutcome c track fetch write s url resp chunks
        h1 h2 h3 h4 h5, foldChunks_all_ok write chunks hok 0]
      simp [foldOutcome]
    · intro pre chunk post e hchunks hpre herr
      constructor
      · rw [stream_snd_eq_foldOutcome c track fetch write s url resp chunks
          h1 h2 h3 h4 h5, hchunks,
          foldChunks_first_err write pre chunk post e hpre herr 0]
        simp [foldOutcome]
      · rw [hchunks]
        exact callsOf_first_err write pre chunk post e hpre herr

/-- Witness for C2: a full download of a two chunk body returns the
sum of the reported write counts, and a stream against a failing sink
fails with `HttpError` after exactly one write call. -/
theorem claim_C2_witness :
    (Client.download ⟨"CID"⟩ sampleTrack plainBodyTransport countingSink).2 =
      Outcome.ok 4 ∧
    ((Client.stream ⟨"CID"⟩ sampleTrack plainBodyTransport failingSink).2 =
      Outcome.err (Error.HttpError "disk full") ∧
      callsOf failingSink [[1, 2, 3], [4]] = [[1, 2, 3]]) :=
  ⟨(claim_C2_amended_byte_accounting.1 ⟨"CID"⟩ sampleTrack plainBodyTransport
      countingSink "https://api.soundcloud.com/tracks/13158665/download"
      ⟨"https", API_HOST, "/tracks/13158665/download", [("client_id", "CID")]⟩
      { location := none, body := [[1, 2, 3], [4]] } [[1, 2, 3], [4]]
      rfl rfl rfl rfl (Or.inl ⟨rfl, rfl⟩)).1
      (fun ch _ => ⟨ch.length, rfl⟩),
   (claim_C2_amended_byte_accounting.2 ⟨"CID"⟩ sampleTrack plainBodyTransport
      failingSink "https://api.soundcloud.com/tracks/13158665/stream"
      ⟨"https", API_HOST, "/tracks/13158665/stream", [("client_id", "CID")]⟩
      { location := none, body := [[1, 2, 3], [4]] } [[1, 2, 3], [4]]
      rfl rfl rfl rfl (Or.inl ⟨rfl, rfl⟩)).2
      [] [1, 2, 3] [[4]] "disk full" rfl (by simp) rfl⟩

/-- C10: the per chunk fold adds only the count returned by the single
`write` call and never retries the remainder; for a sink that accepts
fewer bytes than some chunk holds (and never fails), the operation
still succeeds and the returned total is strictly less than the bytes
received — the unwritten tails are silently dropped. -/
theorem claim_C10_short_writes_drop_tail :
    (∀ (c : Client) (track : Track) (fetch : Transport) (write : Sink)
       (s : String) (url : Url) (resp : Response) (chunks : List (List Nat)),
      track.downloadable = true → track.download_url = some s →
      c.parse_url s = Outcome.ok url → fetch url = Except.ok resp →
      ((resp.location = none ∧ chunks = resp.body) ∨
        (∃ loc uri2 resp2, resp.location = some loc ∧ Url.parse loc = some uri2 ∧
          fetch uri2 = Except.ok resp2 ∧ chunks = resp2.body)) →
      (∀ ch ∈ chunks, ∃ n, write ch = Except.ok n ∧ n ≤ ch.length) →
      (∃ ch ∈ chunks, ∃ n, write ch = Except.ok n ∧ n < ch.length) →
      (c.download track fetch write).2 =
        Outcome.ok ((writtenBytes write chunks).sum) ∧
      (writtenBytes write chunks).sum < (chunks.map List.length).sum) ∧
    (∀ (c : Client) (track : Track) (fetch : Transport) (write : Sink)
       (s : String) (url : Url) (resp : Response) (chunks : List (List Nat)),
      track.streamable = true → track.stream_url = some s →
      c.parse_url s = Outcome.ok url → fetch url = Except.ok resp →
      ((resp.location = none ∧ chunks = resp.body) ∨
        (∃ loc uri2 resp2, resp.location = some loc ∧ Url.parse loc = some uri2 ∧
          fetch uri2 = Except.ok resp2 ∧ chunks = resp2.body)) →
      (∀ ch ∈ chunks, ∃ n, write ch = Except.ok n ∧ n ≤ ch.length) →
      (∃ ch ∈ chunks, ∃ n, write ch = Except.ok n ∧ n < ch.length) →
      (c.stream track fetch write).2 =
        Outcome.ok ((writtenBytes write chunks).sum) ∧
      (writtenBytes write chunks).sum < (chunks.map List.length).sum) := by
  constructor
  · intro c track fetch write s url resp chunks h1 h2 h3 h4 h5 hle hlt
    refine ⟨?_, writtenBytes_sum_lt write chunks hle hlt⟩
    rw [download_snd_eq_foldOutcome c track fetch write s url resp chunks
      h1 h2 h3 h4 h5,
      foldChunks_all_ok write chunks (fun ch hch => ⟨(hle ch hch).choose,
        (hle ch hch).choose_spec.1⟩) 0]
    simp [foldOutcome]
  · intro c track fetch write s url resp chunks h1 h2 h3 h4 h5 hle hlt
    refine ⟨?_, writtenBytes_sum_lt write chunks hle hlt⟩
    rw [stream_snd_eq_foldOutcome c track fetch write s url resp chunks
      h1 h2 h3 h4 h5,
      foldChunks_all_ok write chunks (fun ch hch => ⟨(hle ch hch).choose,
        (hle ch hch).choose_spec.1⟩) 0]
    simp [foldOutcome]

/-- Witness for C10: a sink accepting at most two bytes per chunk
makes a download of a four byte body report three bytes, silently
dropping one byte and reporting no error. -/
theorem claim_C10_witness :
    (Client.download ⟨"CID"⟩ sampleTrack plainBodyTransport shortSink).2 =
      Outcome.ok 3 ∧
    (3 : Nat) < ([[1, 2, 3], [4]].map List.length).sum := by
  have h := claim_C10_short_writes_drop_tail.1 ⟨"CID"⟩ sampleTrack
    plainBodyTransport shortSink
    "https://api.soundcloud.com/tracks/13158665/download"
    ⟨"https", API_HOST, "/tracks/13158665/download", [("client_id", "CID")]⟩
    { location := none, body := [[1, 2, 3], [4]] } [[1, 2, 3], [4]]
    rfl rfl rfl rfl (Or.inl ⟨rfl, rfl⟩)
    (fun ch _ => ⟨min ch.length 2, rfl, by simp⟩)
    ⟨[1, 2, 3], by simp, 2, rfl, by decide⟩
  exact ⟨h.1, h.2⟩

/-- Counterexample for C4: a resolve response that does carry a
`Location` header, but one that does not parse as a URL, makes
`Client::resolve` panic (`Url::parse(header).unwrap()`) instead of
succeeding — so success is not equivalent to the mere presence of the
header. -/
theorem claim_C4_counterexample :
    Client.resolve ⟨"CID"⟩ "x" badLocationTransport =
      ([⟨"https", API_HOST, "/resolve", [("url", "x"), ("client_id", "CID")]⟩],
        Outcome.panic "Url::parse failed") ∧
    badLocationTransport
        ⟨"https", API_HOST, "/resolve", [("url", "x"), ("client_id", "CID")]⟩ =
      Except.ok { location := some "::: not a url", body := [] } ∧
    Outcome.isOk (Client.resolve ⟨"CID"⟩ "x" badLocationTransport).2 = false :=
  ⟨rfl, rfl, rfl⟩

/-- C4 as amended: `Client::resolve` issues `get("/resolve", {url})`
and, on that one request: a transport failure is returned as
`HttpError`; a response with a `Location` header that parses as a URL
succeeds with that URL; a response without a `Location` header fails
with `ApiError("expected location header")`; an unparseable `Location`
header panics. -/
theorem claim_C4_amended_resolve :
    ∀ (c : Client) (url : String) (fetch : Transport) (uri : Url),
      c.get "/resolve" [("url", url)] = Outcome.ok uri →
      (∀ e, fetch uri = Except.error e →
        c.resolve url fetch = ([uri], Outcome.err (Error.HttpError e))) ∧
      (∀ resp loc u, fetch uri = Except.ok resp → resp.location = some loc →
        Url.parse loc = some u →
        c.resolve url fetch = ([uri], Outcome.ok u)) ∧
      (∀ resp loc, fetch uri = Except.ok resp → resp.location = some loc →
        Url.parse loc = none →
        c.resolve url fetch = ([uri], Outcome.panic "Url::parse failed")) ∧
      (∀ resp, fetch uri = Except.ok resp → resp.location = none →
        c.resolve url fetch =
          ([uri], Outcome.err (Error.ApiError "expected location header"))) := by
  intro c url fetch uri hget
  refine ⟨?_, ?_, ?_, ?_⟩
  · intro e he
    simp [Client.resolve, hget, he]
  · intro resp loc u hresp hloc hu
    simp [Client.resolve, hget, hresp, hloc, hu]
  · intro resp loc hresp hloc hu
    simp [Client.resolve, hget, hresp, hloc, hu]
  · intro resp hresp hloc
    simp [Client.resolve, hget, hresp, hloc]

/-- Witness for C4: a resolve run whose response redirects to a
canonical track URL succeeds with that URL parsed. -/
theorem claim_C4_witness :
    Client.resolve ⟨"CID"⟩ "https://soundcloud.com/isqa/tree-eater-1"
      goodLocationTransport =
      ([⟨"https", API_HOST, "/resolve",
          [("url", "https://soundcloud.com/isqa/tree-eater-1"),
           ("client_id", "CID")]⟩],
        Outcome.ok ⟨"https", "api.soundcloud.com", "/tracks/262976655", []⟩) :=
  (claim_C4_amended_resolve ⟨"CID"⟩ "https://soundcloud.com/isqa/tree-eater-1"
      goodLocationTransport
      ⟨"https", API_HOST, "/resolve",
        [("url", "https://soundcloud.com/isqa/tree-eater-1"),
         ("client_id", "CID")]⟩ rfl).2.1
    { location := some "https://api.soundcloud.com/tracks/262976655", body := [] }
    "https://api.soundcloud.com/tracks/262976655"
    ⟨"https", "api.soundcloud.com", "/tracks/262976655", []⟩ rfl rfl rfl

/-- Counterexample for C6: `Client::parse_url` calls
`Url::parse(url).unwrap()`, so on an input that is not a parseable URL
it terminates abnormally instead of returning a `ParseError` or
`UriError` result. -/
theorem claim_C6_counterexample :
    Client.parse_url ⟨"CID"⟩ "not a url" = Outcome.panic "Url::parse failed" :=
  rfl

/-- C6 as amended: on an input string the URL parser accepts,
`parse_url` either returns a request URI or fails with `UriError`; and
when appending the `client_id` pair stays inside the well formed
fragment, the result is exactly the input URL with the `client_id`
query parameter appended.  On an input the URL parser rejects,
`parse_url` panics rather than returning `ParseError`. -/
theorem claim_C6_amended_parse_url :
    ∀ (c : Client) (s : String),
      (Url.parse s = none → c.parse_url s = Outcome.panic "Url::parse failed") ∧
      (∀ u, Url.parse s = some u →
        (∃ uri, c.parse_url s = Outcome.ok uri) ∨
        (∃ m, c.parse_url s = Outcome.err (Error.UriError m))) ∧
      (∀ u, Url.parse s = some u →
        (u.appendPair "client_id" c.client_id).wf = true →
        c.parse_url s = Outcome.ok (u.appendPair "client_id" c.client_id)) := by
  intro c s
  refine ⟨?_, ?_, ?_⟩
  · intro h
    simp [Client.parse_url, h]
  · intro u hu
    simp only [Client.parse_url, hu]
    cases h2 : Url.parse (u.appendPair "client_id" c.client_id).toString with
    | some uri => exact Or.inl ⟨uri, rfl⟩
    | none => exact Or.inr ⟨_, rfl⟩
  · intro u hu hwf
    simp [Client.parse_url, hu, Url.parse_toString _ hwf]

/-- Witness for C6: a well formed track URL gets the `client_id`
parameter appended. -/
theorem claim_C6_witness :
    Client.parse_url ⟨"CID"⟩ "https://api.soundcloud.com/tracks/13158665/download" =
      Outcome.ok ⟨"https", "api.soundcloud.com", "/tracks/13158665/download",
        [("client_id", "CID")]⟩ :=
  (claim_C6_amended_parse_url ⟨"CID"⟩
      "https://api.soundcloud.com/tracks/13158665/download").2.2
    ⟨"https", "api.soundcloud.com", "/tracks/13158665/download", []⟩
    rfl (by decide)

/-- Folding `append_pair` over a parameter list appends all pairs to
the query. -/
theorem appendPair_foldl (params : List (String × String)) :
    ∀ u : Url, params.foldl (fun u kv => u.appendPair kv.1 kv.2) u =
      ⟨u.scheme, u.host, u.path, u.query ++ params⟩ := by
  induction params with
  | nil => intro u; simp
  | cons p rest ih =>
    intro u
    obtain ⟨k, v⟩ := p
    rw [List.foldl_cons, ih]
    simp [Url.appendPair]

/-- The serialization of a query free URL is scheme, separator, host
and path. -/
theorem toString_no_query (scheme host path : String) :
    Url.toString ⟨scheme, host, path, []⟩ = scheme ++ "://" ++ host ++ path := by
  apply String.ext
  simp only [Url.toString, String.data_append, List.append_nil]
  simp [List.append_assoc, List.cons_append, List.nil_append]

/-- `Client::get` on a well formed path and parameter list requests
`https://API_HOST ++ path` with the caller parameters and then the
`client_id` pair as the query. -/
theorem client_get_wf (c : Client) (path : String) (params : List (String × String))
    (hpath : pathWf path = true)
    (hpairs : (params ++ [("client_id", c.client_id)]).all pairWf = true) :
    c.get path params =
      Outcome.ok ⟨"https", API_HOST, path, params ++ [("client_id", c.client_id)]⟩ := by
  have hparams : params.all pairWf = true := by
    rw [List.all_append, Bool.and_eq_true] at hpairs
    exact hpairs.1
  have hwf1 : (Url.mk "https" API_HOST path []).wf = true := by
    simp only [Url.wf, Bool.and_eq_true]
    exact ⟨⟨⟨by decide, by decide⟩, hpath⟩, by simp⟩
  have hwf2 : (Url.mk "https" API_HOST path params).wf = true := by
    simp only [Url.wf, Bool.and_eq_true]
    exact ⟨⟨⟨by decide, by decide⟩, hpath⟩, hparams⟩
  have hwf3 : (Url.mk "https" API_HOST path
      (params ++ [("client_id", c.client_id)])).wf = true := by
    simp only [Url.wf, Bool.and_eq_true]
    exact ⟨⟨⟨by decide, by decide⟩, hpath⟩, hpairs⟩
  have hbase : Url.parse ("https://" ++ API_HOST ++ path) =
      some ⟨"https", API_HOST, path, []⟩ := by
    have h := Url.parse_toString ⟨"https", API_HOST, path, []⟩ hwf1
    rwa [toString_no_query, show ("https" : String) ++ "://" = "https://" from rfl]
      at h
  have hp1 := Url.parse_toString ⟨"https", API_HOST, path, params⟩ hwf2
  have hp2 := Url.parse_toString
    ⟨"https", API_HOST, path, params ++ [("client_id", c.client_id)]⟩ hwf3
  simp only [Client.get, hbase]
  rw [appendPair_foldl]
  simp only [List.nil_append, Client.parse_url, hp1, Url.appendPair, hp2]

/-- Counterexample for C7: in a redirected download the second
outbound request goes to the `Location` target verbatim — here an
`http` URL on a CDN host with no `client_id` parameter — so not every
outbound request is a secure request to the fixed API host carrying
`client_id`. -/
theorem claim_C7_counterexample :
    (Client.download ⟨"CID"⟩ sampleTrack redirectingTransport countingSink).1 =
      [⟨"https", API_HOST, "/tracks/13158665/download", [("client_id", "CID")]⟩,
       ⟨"http", "cdn.example.org", "/f.mp3", []⟩] ∧
    ((Client.download ⟨"CID"⟩ sampleTrack redirectingTransport countingSink).1.all
      (fun u => u.host == API_HOST && u.scheme == "https" &&
        u.query.any (fun kv => kv.1 == "client_id"))) = false :=
  ⟨rfl, rfl⟩

/-- C7 as amended: every request built by `Client::get` is a GET to
`https://api.soundcloud.com` carrying the `client_id` query parameter
after the caller supplied parameters; the redirect follow up request
of a transfer, however, is issued to the `Location` value exactly as
parsed, with nothing appended. -/
theorem claim_C7_amended_outbound_requests :
    (∀ (c : Client) (path : String) (params : List (String × String)),
      pathWf path = true →
      (params ++ [("client_id", c.client_id)]).all pairWf = true →
      c.get path params =
        Outcome.ok ⟨"https", API_HOST, path,
          params ++ [("client_id", c.client_id)]⟩) ∧
    (∀ (c : Client) (track : Track) (fetch : Transport) (write : Sink)
       (s : String) (url : Url) (resp : Response) (loc : String) (uri2 : Url),
      track.downloadable = true → track.download_url = some s →
      c.parse_url s = Outcome.ok url → fetch url = Except.ok resp →
      resp.location = some loc → Url.parse loc = some uri2 →
      (c.download track fetch write).1 = [url, uri2]) := by
  constructor
  · exact client_get_wf
  · intro c track fetch write s url resp loc uri2 h1 h2 h3 h4 h5 h6
    cases h7 : fetch uri2 <;>
      simp [Client.download, h1, h2, h3, h4, h5, h6, h7]

/-- Witness for C7: a concrete search request and a concrete
redirected transfer. -/
theorem claim_C7_witness :
    Client.get ⟨"CID"⟩ "/tracks" [("q", "noisia")] =
      Outcome.ok ⟨"https", API_HOST, "/tracks",
        [("q", "noisia"), ("client_id", "CID")]⟩ ∧
    (Client.download ⟨"CID"⟩ sampleTrack redirectingTransport countingSink).1 =
      [⟨"https", API_HOST, "/tracks/13158665/download", [("client_id", "CID")]⟩,
       ⟨"http", "cdn.example.org", "/f.mp3", []⟩] :=
  ⟨claim_C7_amended_outbound_requests.1 ⟨"CID"⟩ "/tracks" [("q", "noisia")]
      (by decide) (by decide),
   claim_C7_amended_outbound_requests.2 ⟨"CID"⟩ sampleTrack redirectingTransport
      countingSink "https://api.soundcloud.com/tracks/13158665/download"
      ⟨"https", API_HOST, "/tracks/13158665/download", [("client_id", "CID")]⟩
      { location := some "http://cdn.example.org/f.mp3", body := [] }
      "http://cdn.example.org/f.mp3"
      ⟨"http", "cdn.example.org", "/f.mp3", []⟩ rfl rfl rfl rfl rfl rfl⟩

/-- C8: for every multi resource query whose remote response decodes
to zero matches (a null or empty JSON array), the terminal `get()`
succeeds with an absent or empty sequence of tracks and is not an
error model value. -/
theorem claim_C8_empty_result_is_success :
    ∀ (c : Client) (params : List (String × String))
      (fetch : Url → Except String TracksBody) (uri : Url)
      (t : Option (List Track)),
      c.get "/tracks" params = Outcome.ok uri →
      fetch uri = Except.ok (TracksBody.jsonTracks t) →
      t = none ∨ t = some [] →
      TrackRequestBuilder.get c params fetch = Outcome.ok t ∧
        ∀ e : Error, TrackRequestBuilder.get c params fetch ≠ Outcome.err e := by
  intro c params fetch uri t hget hfetch ht
  constructor
  · simp [TrackRequestBuilder.get, hget, hfetch]
  · intro e
    simp [TrackRequestBuilder.get, hget, hfetch]

/-- Witness for C8: a query for which the remote returns an empty
array succeeds with the empty sequence. -/
theorem claim_C8_witness :
    TrackRequestBuilder.get ⟨"CID"⟩ [("q", "d0df0dt snuffx")]
      emptyTracksTransport = Outcome.ok (some []) ∧
    ∀ e : Error, TrackRequestBuilder.get ⟨"CID"⟩ [("q", "d0df0dt snuffx")]
      emptyTracksTransport ≠ Outcome.err e :=
  claim_C8_empty_result_is_success ⟨"CID"⟩ [("q", "d0df0dt snuffx")]
    emptyTracksTransport
    ⟨"https", API_HOST, "/tracks", [("q", "d0df0dt snuffx"), ("client_id", "CID")]⟩
    (some []) rfl rfl (Or.inr rfl)
